import Mathlib

/-!
Shallow embedding of the core of the `wgpu_rendering` repository.

Scalar `f32` arithmetic is idealized over `ℚ` (exact rational arithmetic);
GPU buffers are modelled as values carrying an identity handle, a byte size
and record-level contents; the wgpu `Device` is modelled as a fresh-handle
counter, and a `CommandEncoder` as the list of buffer-copy commands recorded
on it.  Queued writes are applied to the modelled contents at call time.

Sources embedded:
  src/vectors.rs          (Vector2 and its componentwise operators)
  src/camera.rs           (Camera, CameraTransforms)
  src/dynamic_storage.rs  (DynamicStorageBuffer)
  src/lib.rs              (RenderStage, RenderController, the redraw loop)
  src/rect_circle.rs      (RectOrCircle, RectCircleDrawer::new)
-/

/-- `Vector2` from src/vectors.rs: a plain 2D vector, components idealized
as rationals. -/
@[ext]
structure Vector2 where
  x : ℚ
  y : ℚ
deriving DecidableEq

/-- Componentwise addition (`impl Add for Vector2`). -/
instance : Add Vector2 :=
  ⟨fun a b => ⟨a.x + b.x, a.y + b.y⟩⟩

/-- Componentwise subtraction (`impl Sub for Vector2`). -/
instance : Sub Vector2 :=
  ⟨fun a b => ⟨a.x - b.x, a.y - b.y⟩⟩

/-- Componentwise multiplication (`impl Mul for Vector2`). -/
instance : Mul Vector2 :=
  ⟨fun a b => ⟨a.x * b.x, a.y * b.y⟩⟩

/-- Componentwise division (`impl Div for Vector2`). -/
instance : Div Vector2 :=
  ⟨fun a b => ⟨a.x / b.x, a.y / b.y⟩⟩

/-- Scalar multiplication on the right (`impl Mul<f32> for Vector2`). -/
instance : HMul Vector2 ℚ Vector2 :=
  ⟨fun v s => ⟨v.x * s, v.y * s⟩⟩

/-- Scalar division on the right (`impl Div<f32> for Vector2`). -/
instance : HDiv Vector2 ℚ Vector2 :=
  ⟨fun v s => ⟨v.x / s, v.y / s⟩⟩

/-- `Camera` from src/camera.rs (the `_padding` field is GPU-layout only and
carries no information, so it is omitted). -/
structure Camera where
  target : Vector2
  zoom : ℚ
deriving DecidableEq

/-- `CameraTransforms` from src/camera.rs.  The two uniform buffers and the
bind group only mirror `camera` and `aspect_ratio` on the GPU side; the
claims are about the cached CPU-side state, so only that state is kept. -/
structure CameraTransforms where
  camera : Camera
  aspect_ratio : Vector2
deriving DecidableEq

/-- `CameraTransforms::screen_to_normalize`: the viewport size is passed as
its two `f32`-cast dimensions `w, h`. -/
def CameraTransforms.screen_to_normalize (screen_pos : Vector2) (w h : ℚ) : Vector2 :=
  (screen_pos / (⟨w, h⟩ : Vector2)) * (⟨2, -2⟩ : Vector2) - (⟨1, -1⟩ : Vector2)

/-- `CameraTransforms::normalized_to_world`. -/
def CameraTransforms.normalized_to_world (ct : CameraTransforms) (normalized_pos : Vector2) :
    Vector2 :=
  normalized_pos / ct.aspect_ratio / ct.camera.zoom + ct.camera.target

/-- `CameraTransforms::screen_to_world`. -/
def CameraTransforms.screen_to_world (ct : CameraTransforms) (screen_pos : Vector2) (w h : ℚ) :
    Vector2 :=
  ct.normalized_to_world (CameraTransforms.screen_to_normalize screen_pos w h)

/-- `CameraTransforms::get_aspect_transform`. -/
def CameraTransforms.get_aspect_transform (w h : ℚ) : Vector2 :=
  ⟨min w h / w, min w h / h⟩

/-- `CameraTransforms::update_aspect_ratio`: recomputes the cached
aspect-ratio vector (the queued uniform write mirrors this cache). -/
def CameraTransforms.update_aspect_ratio (ct : CameraTransforms) (w h : ℚ) : CameraTransforms :=
  { ct with aspect_ratio := CameraTransforms.get_aspect_transform w h }

/-- Modelled from the spec: the world-to-screen map, the inverse of the
screen-to-world map of section 4.2 (the forward vertex-stage transform lives
in the WGSL shader text, which is outside src): subtract `target`, multiply
by `zoom`, multiply componentwise by the aspect-ratio correction vector,
then de-normalize from `[-1,1]` to `[0,w]` x `[0,h]` with y re-flipped. -/
def world_to_screen (ct : CameraTransforms) (world_pos : Vector2) (w h : ℚ) : Vector2 :=
  let n := ((world_pos - ct.camera.target) * ct.camera.zoom) * ct.aspect_ratio
  ⟨(n.x + 1) * w / 2, (1 - n.y) * h / 2⟩

/-- Fuelled helper for `next_power_of_two`; the fuel only drives structural
recursion, `n` itself is always enough fuel. -/
def nextPow2Go (fuel n : Nat) : Nat :=
  match fuel with
  | 0 => 1
  | fuel + 1 => if n ≤ 1 then 1 else 2 * nextPow2Go fuel ((n + 1) / 2)

/-- Rust `u64::next_power_of_two`: the smallest power of two that is
greater than or equal to `n` (1 for `n = 0`). -/
def next_power_of_two (n : Nat) : Nat :=
  nextPow2Go n n

/-- A GPU buffer: identity handle (as issued by the device), byte size, and
contents at record granularity (`wgpu` zero-initializes new buffers; the
model fills them with `default`). -/
structure GpuBuffer (I : Type) where
  id : Nat
  size : Nat
  content : List I
deriving DecidableEq

/-- A buffer-to-buffer copy recorded on a `CommandEncoder`
(`copy_buffer_to_buffer`); offsets and size are in bytes. -/
structure CopyCmd where
  src : Nat
  src_offset : Nat
  dst : Nat
  dst_offset : Nat
  size : Nat
deriving DecidableEq

/-- Effect of a whole-prefix copy at offset 0 on the destination contents:
the first `byteCount / recordSize` records of `src` replace the same range
of `dst`. -/
def copy_at_zero {I : Type} (recordSize : Nat) (src dst : List I) (byteCount : Nat) : List I :=
  src.take (byteCount / recordSize) ++ dst.drop (byteCount / recordSize)

/-- `DynamicStorageBuffer<I>` from src/dynamic_storage.rs.  The bind group
is modelled by the identity of the buffer it references (`create_bind_group`
wraps exactly one buffer binding). -/
structure DynamicStorageBuffer (I : Type) where
  length : Nat
  item_capacity : Nat
  buffer : GpuBuffer I
  bind_group : Nat
deriving DecidableEq

/-- `DynamicStorageBuffer::item_to_byte_capacity`:
`item_capacity * size_of::<I>()`. -/
def item_to_byte_capacity (recordSize item_capacity : Nat) : Nat :=
  item_capacity * recordSize

/-- `DynamicStorageBuffer::create_buffer`: the device hands out the next
fresh buffer id and zero-initialized contents of `size` bytes. -/
def create_buffer (I : Type) [Inhabited I] (recordSize dev size : Nat) : GpuBuffer I × Nat :=
  (⟨dev, size, List.replicate (size / recordSize) default⟩, dev + 1)

/-- `Queue::write_buffer(buffer, 0, cast_slice(data))`: overwrite the first
`data.length` record slots of the buffer, leaving the rest unchanged. -/
def write_buffer {I : Type} (buf : GpuBuffer I) (data : List I) : GpuBuffer I :=
  { buf with content := data ++ buf.content.drop data.length }

/-- `DynamicStorageBuffer::with_capacity`. -/
def DynamicStorageBuffer.with_capacity (I : Type) [Inhabited I] (recordSize dev item_capacity : Nat) :
    DynamicStorageBuffer I × Nat :=
  let byte_capacity := item_to_byte_capacity recordSize item_capacity
  let r := create_buffer I recordSize dev byte_capacity
  (⟨0, item_capacity, r.1, r.1.id⟩, r.2)

/-- `DynamicStorageBuffer::new`: `with_capacity(device, 4)`. -/
def DynamicStorageBuffer.new (I : Type) [Inhabited I] (recordSize dev : Nat) :
    DynamicStorageBuffer I × Nat :=
  DynamicStorageBuffer.with_capacity I recordSize dev 4

/-- `DynamicStorageBuffer::replace_buffer_with_new_length`: create a fresh
buffer and bind group, install both, set the new capacity, and return the
old buffer (second component) plus the advanced device counter. -/
def DynamicStorageBuffer.replace_buffer_with_new_length {I : Type} [Inhabited I]
    (st : DynamicStorageBuffer I) (recordSize dev new_item_capacity : Nat) :
    DynamicStorageBuffer I × GpuBuffer I × Nat :=
  let new_byte_capacity := item_to_byte_capacity recordSize new_item_capacity
  let r := create_buffer I recordSize dev new_byte_capacity
  ({ st with
      buffer := r.1
      bind_group := r.1.id
      item_capacity := new_item_capacity },
    st.buffer, r.2)

/-- `DynamicStorageBuffer::set_new_data`.  In the growth branch the new
buffer is created mapped and the records are copied into its head before
unmapping; the model applies that write directly. -/
def DynamicStorageBuffer.set_new_data {I : Type} [Inhabited I]
    (st : DynamicStorageBuffer I) (recordSize dev : Nat) (data : List I) :
    DynamicStorageBuffer I × Nat :=
  if data.length ≤ st.item_capacity then
    ({ st with buffer := write_buffer st.buffer data, length := data.length }, dev)
  else
    let new_shape_capacity := next_power_of_two data.length
    let r := st.replace_buffer_with_new_length recordSize dev new_shape_capacity
    ({ r.1 with buffer := write_buffer r.1.buffer data, length := data.length }, r.2.2)

/-- `DynamicStorageBuffer::shrink_to_fit`: replace the buffer with one sized
exactly to `length` records and record the prefix copy on the encoder. -/
def DynamicStorageBuffer.shrink_to_fit {I : Type} [Inhabited I]
    (st : DynamicStorageBuffer I) (recordSize dev : Nat) (enc : List CopyCmd) :
    DynamicStorageBuffer I × Nat × List CopyCmd :=
  let item_capacity := st.length
  let r := st.replace_buffer_with_new_length recordSize dev item_capacity
  (r.1, r.2.2,
    enc ++ [⟨r.2.1.id, 0, r.1.buffer.id, 0, item_to_byte_capacity recordSize item_capacity⟩])

/-- One operation on a `DynamicStorageBuffer` (claim C2's operation set;
`new`/`with_capacity` are the initial states, not operations). -/
inductive StorageOp (I : Type) where
  | set_new_data (data : List I)
  | shrink_to_fit

/-- Apply one `StorageOp` to a (buffer, device, encoder) triple. -/
def stepOp {I : Type} [Inhabited I] (recordSize : Nat)
    (s : DynamicStorageBuffer I × Nat × List CopyCmd) (op : StorageOp I) :
    DynamicStorageBuffer I × Nat × List CopyCmd :=
  match op with
  | .set_new_data data =>
    let r := s.1.set_new_data recordSize s.2.1 data
    (r.1, r.2, s.2.2)
  | .shrink_to_fit => s.1.shrink_to_fit recordSize s.2.1 s.2.2

/-- Run a sequence of `StorageOp`s. -/
def runOps {I : Type} [Inhabited I] (recordSize : Nat)
    (s : DynamicStorageBuffer I × Nat × List CopyCmd) (ops : List (StorageOp I)) :
    DynamicStorageBuffer I × Nat × List CopyCmd :=
  ops.foldl (stepOp recordSize) s

/-- Run a sequence of `set_new_data` calls (no shrink). -/
def runSets {I : Type} [Inhabited I] (recordSize : Nat)
    (s : DynamicStorageBuffer I × Nat) (datas : List (List I)) :
    DynamicStorageBuffer I × Nat :=
  datas.foldl (fun s data => s.1.set_new_data recordSize s.2 data) s

/-- `RenderStage` from src/lib.rs. -/
inductive RenderStage where
  | Line
  | RectsAndCircles
deriving DecidableEq

/-- `Line` from the lines module: endpoints and a premultiplied RGBA color
(`from` and `to` are Lean keywords, hence the underscores). -/
structure Line where
  from_ : Vector2
  to_ : Vector2
  color : ℚ × ℚ × ℚ × ℚ
deriving DecidableEq

/-- `RectOrCircle` from src/rect_circle.rs (the `_padding` field is
GPU-layout only and is omitted; it still counts towards the byte size). -/
structure RectOrCircle where
  position : Vector2
  size : Vector2
  color : ℚ × ℚ × ℚ
deriving DecidableEq

/-- `mem::size_of::<RectOrCircle>()`: position (8) + size (8) + color (12)
+ padding (4) = 32 bytes. -/
def rect_or_circle_size : Nat := 32

/-- `RenderController` from src/lib.rs. -/
structure RenderController where
  render_order : List RenderStage
  lines : List Line
  rects : List RectOrCircle
deriving DecidableEq

/-- `RenderController::new` (= `Default::default()`). -/
def RenderController.new : RenderController :=
  ⟨[], [], []⟩

/-- `RenderController::clear`. -/
def RenderController.clear (_rc : RenderController) : RenderController :=
  ⟨[], [], []⟩

/-- `RenderController::add_stage`; the `assert!` panic is modelled as
`none`. -/
def RenderController.add_stage (rc : RenderController) (stage : RenderStage) :
    Option RenderController :=
  if stage ∈ rc.render_order then none
  else some { rc with render_order := rc.render_order ++ [stage] }

/-- `RenderController::try_add_stage`: returns whether insertion happened
together with the updated controller. -/
def RenderController.try_add_stage (rc : RenderController) (stage : RenderStage) :
    Bool × RenderController :=
  if stage ∈ rc.render_order then (false, rc)
  else (true, { rc with render_order := rc.render_order ++ [stage] })

/-- `RenderController::add_line`. -/
def RenderController.add_line (rc : RenderController) (line : Line) : RenderController :=
  { rc with lines := rc.lines ++ [line] }

/-- `RenderController::add_rect_or_circle`. -/
def RenderController.add_rect_or_circle (rc : RenderController) (shape : RectOrCircle) :
    RenderController :=
  { rc with rects := rc.rects ++ [shape] }

/-- The two shape pipelines dispatched by the redraw loop in src/lib.rs. -/
inductive PipelineKind where
  | line
  | rectCircle
deriving DecidableEq

/-- Which pipeline the redraw loop's `match stage` arm invokes. -/
def stage_pipeline : RenderStage → PipelineKind
  | .Line => .line
  | .RectsAndCircles => .rectCircle

/-- The redraw loop `for stage in render_order { match stage ... }` from
src/lib.rs, as the sequence of pipeline draw calls it issues. -/
def redraw_dispatch (rc : RenderController) : List PipelineKind :=
  rc.render_order.foldl (fun acc stage => acc ++ [stage_pipeline stage]) []

/-- Fold a sequence of `try_add_stage` calls over a controller. -/
def apply_adds (rc : RenderController) (stages : List RenderStage) : RenderController :=
  stages.foldl (fun rc s => (rc.try_add_stage s).2) rc

/-- The CPU-side state of `RectCircleDrawer` from src/rect_circle.rs that
its constructor establishes (scalar fields plus the instance buffer's byte
size). -/
structure RectCircleDrawer where
  instance_length : Nat
  instance_capacity : Nat
  instance_buffer_size : Nat
deriving DecidableEq

/-- `RectCircleDrawer::new`.  Panics are modelled as `none`: the `assert!`
requires `initial_instances.len() <= instance_capacity`, and the subsequent
`copy_from_slice` into the first `instance_buffer_size` bytes of the mapped
range panics unless the source slice has exactly that many bytes. -/
def RectCircleDrawer.new (instance_capacity : Nat)
    (initial_instances : Option (List RectOrCircle)) : Option RectCircleDrawer :=
  let instance_buffer_size := instance_capacity * rect_or_circle_size
  match initial_instances with
  | none => some ⟨0, instance_capacity, instance_buffer_size⟩
  | some xs =>
    if xs.length ≤ instance_capacity then
      if xs.length * rect_or_circle_size = instance_buffer_size then
        some ⟨xs.length, instance_capacity, instance_buffer_size⟩
      else none
    else none

/-- The capacity and byte-size invariant of a `DynamicStorageBuffer`
(spec section 3): `length ≤ capacity` and the buffer's byte size equals
`capacity * size_of::<I>()`. -/
def storage_inv {I : Type} (recordSize : Nat) (st : DynamicStorageBuffer I) : Prop :=
  st.length ≤ st.item_capacity ∧
  st.buffer.size = item_to_byte_capacity recordSize st.item_capacity

/-- Concrete scenario state (spec section 8), step 0: a fresh buffer over a
4-byte record type. -/
def dsbDemo0 : DynamicStorageBuffer Unit × Nat :=
  DynamicStorageBuffer.new Unit 4 0

/-- Concrete scenario, step 1: `set_new_data` with 3 records. -/
def dsbDemo1 : DynamicStorageBuffer Unit × Nat :=
  dsbDemo0.1.set_new_data 4 dsbDemo0.2 (List.replicate 3 ())

/-- Concrete scenario, step 2: `set_new_data` with 10 records. -/
def dsbDemo2 : DynamicStorageBuffer Unit × Nat :=
  dsbDemo1.1.set_new_data 4 dsbDemo1.2 (List.replicate 10 ())

/-- Concrete scenario, step 3: `shrink_to_fit`. -/
def dsbDemo3 : DynamicStorageBuffer Unit × Nat × List CopyCmd :=
  dsbDemo2.1.shrink_to_fit 4 dsbDemo2.2 []

/-- Counterexample run for claim C2: from `new`, the operation sequence
`[set_new_data (10 records)]` (growth occurs at this call). -/
def dsbCexMid : DynamicStorageBuffer Unit × Nat × List CopyCmd :=
  runOps 4 ((DynamicStorageBuffer.new Unit 4 0).1, (DynamicStorageBuffer.new Unit 4 0).2, [])
    [StorageOp.set_new_data (List.replicate 10 ())]

/-- Counterexample run for claim C2: the same sequence followed by
`shrink_to_fit`. -/
def dsbCexEnd : DynamicStorageBuffer Unit × Nat × List CopyCmd :=
  runOps 4 ((DynamicStorageBuffer.new Unit 4 0).1, (DynamicStorageBuffer.new Unit 4 0).2, [])
    [StorageOp.set_new_data (List.replicate 10 ()), StorageOp.shrink_to_fit]

/-- A small well-formed `DynamicStorageBuffer` state used to instantiate
hypothesis-bearing theorems: 1 live record out of capacity 2, 4-byte
records, buffer id 0, bind group referencing it. -/
def dsbSmall : DynamicStorageBuffer Unit :=
  ⟨1, 2, ⟨0, 8, [(), ()]⟩, 0⟩

theorem Vector2.add_def (a b : Vector2) : a + b = ⟨a.x + b.x, a.y + b.y⟩ := rfl

theorem Vector2.sub_def (a b : Vector2) : a - b = ⟨a.x - b.x, a.y - b.y⟩ := rfl

theorem Vector2.mul_def (a b : Vector2) : a * b = ⟨a.x * b.x, a.y * b.y⟩ := rfl

theorem Vector2.div_def (a b : Vector2) : a / b = ⟨a.x / b.x, a.y / b.y⟩ := rfl

theorem Vector2.smul_def (v : Vector2) (s : ℚ) : v * s = ⟨v.x * s, v.y * s⟩ := rfl

theorem Vector2.sdiv_def (v : Vector2) (s : ℚ) : v / s = ⟨v.x / s, v.y / s⟩ := rfl

theorem nextPow2Go_ge : ∀ fuel n : Nat, n ≤ fuel → n ≤ nextPow2Go fuel n := by
  intro fuel
  induction fuel with
  | zero => intro n h; simp only [nextPow2Go]; omega
  | succ fuel ih =>
    intro n h
    simp only [nextPow2Go]
    split
    · omega
    · have h2 : (n + 1) / 2 ≤ fuel := by omega
      have h3 := ih ((n + 1) / 2) h2
      omega

theorem next_power_of_two_ge (n : Nat) : n ≤ next_power_of_two n :=
  nextPow2Go_ge n n le_rfl

theorem nextPow2Go_pow2 : ∀ fuel n : Nat, ∃ k, nextPow2Go fuel n = 2 ^ k := by
  intro fuel
  induction fuel with
  | zero => intro n; exact ⟨0, rfl⟩
  | succ fuel ih =>
    intro n
    simp only [nextPow2Go]
    split
    · exact ⟨0, rfl⟩
    · obtain ⟨k, hk⟩ := ih ((n + 1) / 2)
      refine ⟨k + 1, ?_⟩
      rw [hk, pow_succ]
      ring

theorem next_power_of_two_pow2 (n : Nat) : ∃ k, next_power_of_two n = 2 ^ k :=
  nextPow2Go_pow2 n n

/-- C4: `screen_to_world` (with the aspect cache computed from the same
viewport size) equals the spec's closed formula: normalize to
`[-1,1]` x `[1,-1]` with y flipped, divide componentwise by the aspect-ratio
correction vector, divide by `zoom`, add `target`. -/
theorem c4_screen_to_world_formula (target : Vector2) (zoom w h sx sy : ℚ) :
    CameraTransforms.screen_to_world
        ⟨⟨target, zoom⟩, CameraTransforms.get_aspect_transform w h⟩ ⟨sx, sy⟩ w h =
      ⟨(2 * sx / w - 1) / (min w h / w) / zoom + target.x,
        (1 - 2 * sy / h) / (min w h / h) / zoom + target.y⟩ := by
  unfold CameraTransforms.screen_to_world CameraTransforms.normalized_to_world
    CameraTransforms.screen_to_normalize CameraTransforms.get_aspect_transform
  simp only [Vector2.add_def, Vector2.sub_def, Vector2.mul_def, Vector2.div_def,
    Vector2.sdiv_def]
  ext
  · ring
  · ring

/-- C9: for a square viewport of positive side `w`, the aspect-ratio
correction vector computed by `get_aspect_transform` (and cached by
`update_aspect_ratio`) is exactly `(1, 1)`. -/
theorem c9_square_aspect (w : ℚ) (hw : 0 < w) :
    CameraTransforms.get_aspect_transform w w = ⟨1, 1⟩ ∧
    ∀ ct : CameraTransforms, (ct.update_aspect_ratio w w).aspect_ratio = ⟨1, 1⟩ := by
  have h1 : CameraTransforms.get_aspect_transform w w = ⟨1, 1⟩ := by
    unfold CameraTransforms.get_aspect_transform
    rw [min_self]
    ext
    · exact div_self (ne_of_gt hw)
    · exact div_self (ne_of_gt hw)
  refine ⟨h1, fun ct => ?_⟩
  unfold CameraTransforms.update_aspect_ratio
  simpa using h1

theorem c9_witness :
    CameraTransforms.get_aspect_transform 2 2 = ⟨1, 1⟩ :=
  (c9_square_aspect 2 (by norm_num)).1

/-- C5: screen-to-world followed by the spec's inverse world-to-screen map
returns the original screen coordinate exactly (in the exact-arithmetic
model; exactness implies the claimed 1e-4 relative tolerance), for any
positive viewport, nonzero zoom, and screen coordinate inside the
viewport. -/
theorem c5_round_trip (target : Vector2) (zoom w h sx sy : ℚ)
    (hw : 0 < w) (hh : 0 < h) (hz : zoom ≠ 0)
    (hsx0 : 0 ≤ sx) (hsxw : sx ≤ w) (hsy0 : 0 ≤ sy) (hsyh : sy ≤ h) :
    world_to_screen ⟨⟨target, zoom⟩, CameraTransforms.get_aspect_transform w h⟩
        (CameraTransforms.screen_to_world
          ⟨⟨target, zoom⟩, CameraTransforms.get_aspect_transform w h⟩ ⟨sx, sy⟩ w h) w h =
      ⟨sx, sy⟩ := by
  have hw0 : w ≠ 0 := ne_of_gt hw
  have hh0 : h ≠ 0 := ne_of_gt hh
  have hm : min w h ≠ 0 := ne_of_gt (lt_min hw hh)
  unfold world_to_screen CameraTransforms.screen_to_world
    CameraTransforms.normalized_to_world CameraTransforms.screen_to_normalize
    CameraTransforms.get_aspect_transform
  simp only [Vector2.add_def, Vector2.sub_def, Vector2.mul_def, Vector2.div_def,
    Vector2.sdiv_def, Vector2.smul_def]
  ext
  · dsimp only
    field_simp
    ring
  · dsimp only
    field_simp
    ring

theorem c5_witness :
    world_to_screen ⟨⟨⟨0, 0⟩, 1⟩, CameraTransforms.get_aspect_transform 2 1⟩
        (CameraTransforms.screen_to_world
          ⟨⟨⟨0, 0⟩, 1⟩, CameraTransforms.get_aspect_transform 2 1⟩ ⟨1, 1⟩ 2 1) 2 1 =
      ⟨1, 1⟩ :=
  c5_round_trip ⟨0, 0⟩ 1 2 1 1 1 (by norm_num) (by norm_num) (by norm_num)
    (by norm_num) (by norm_num) (by norm_num) (by norm_num)

/-- C1: `set_new_data` sets `length` to the record count; when the data
fits the current capacity it overwrites the record slots in place without
allocating or rebinding, otherwise it allocates one fresh buffer of
capacity `next_power_of_two(len)`, writes the records into it, and rebinds
to it. -/
theorem c1_set_new_data_spec {I : Type} [Inhabited I] (recordSize dev : Nat)
    (st : DynamicStorageBuffer I) (data : List I)
    (h : st.length ≤ st.item_capacity) :
    (st.set_new_data recordSize dev data).1.length = data.length ∧
    (data.length ≤ st.item_capacity →
      (st.set_new_data recordSize dev data).1.item_capacity = st.item_capacity ∧
      (st.set_new_data recordSize dev data).1.buffer.id = st.buffer.id ∧
      (st.set_new_data recordSize dev data).1.buffer.size = st.buffer.size ∧
      (st.set_new_data recordSize dev data).1.bind_group = st.bind_group ∧
      (st.set_new_data recordSize dev data).2 = dev ∧
      (st.set_new_data recordSize dev data).1.buffer.content =
        data ++ st.buffer.content.drop data.length) ∧
    (st.item_capacity < data.length →
      (st.set_new_data recordSize dev data).1.item_capacity =
        next_power_of_two data.length ∧
      (st.set_new_data recordSize dev data).2 = dev + 1 ∧
      (st.set_new_data recordSize dev data).1.buffer.id = dev ∧
      (st.set_new_data recordSize dev data).1.bind_group =
        (st.set_new_data recordSize dev data).1.buffer.id ∧
      (st.set_new_data recordSize dev data).1.buffer.content.take data.length = data) := by
  by_cases hle : data.length ≤ st.item_capacity
  · refine ⟨?_, fun _ => ?_, fun hgt => absurd hle (by omega)⟩
    · simp [DynamicStorageBuffer.set_new_data, hle]
    · refine ⟨?_, ?_, ?_, ?_, ?_, ?_⟩ <;>
        simp [DynamicStorageBuffer.set_new_data, hle, write_buffer]
  · refine ⟨?_, fun hc => absurd hc hle, fun _ => ?_⟩
    · simp [DynamicStorageBuffer.set_new_data, hle]
    · refine ⟨?_, ?_, ?_, ?_, ?_⟩ <;>
        simp [DynamicStorageBuffer.set_new_data, hle,
          DynamicStorageBuffer.replace_buffer_with_new_length, create_buffer,
          write_buffer, List.take_left]

theorem c1_witness :
    (dsbSmall.set_new_data 4 5 [()]).1.length = [()].length ∧
    (dsbSmall.set_new_data 4 5 [()]).1.item_capacity = dsbSmall.item_capacity :=
  ⟨(c1_set_new_data_spec 4 5 dsbSmall [()] (by decide)).1,
    ((c1_set_new_data_spec 4 5 dsbSmall [()] (by decide)).2.1 (by decide)).1⟩

/-- C3: `shrink_to_fit` sets the capacity to `length`, keeps `length`,
allocates the new buffer at exactly `length` records worth of bytes, and
schedules on the command encoder one copy of exactly
`length * size_of::<I>()` bytes from offset 0 of the old buffer to offset 0
of the new buffer, which preserves the live prefix contents. -/
theorem c3_shrink_to_fit_spec {I : Type} [Inhabited I] (recordSize dev : Nat)
    (enc : List CopyCmd) (st : DynamicStorageBuffer I)
    (h : st.length ≤ st.item_capacity)
    (hc : st.buffer.content.length = st.item_capacity)
    (hrs : 0 < recordSize) :
    (st.shrink_to_fit recordSize dev enc).1.item_capacity = st.length ∧
    (st.shrink_to_fit recordSize dev enc).1.length = st.length ∧
    (st.shrink_to_fit recordSize dev enc).1.buffer.size =
      item_to_byte_capacity recordSize st.length ∧
    (st.shrink_to_fit recordSize dev enc).2.2 =
      enc ++ [⟨st.buffer.id, 0, (st.shrink_to_fit recordSize dev enc).1.buffer.id, 0,
        st.length * recordSize⟩] ∧
    (copy_at_zero recordSize st.buffer.content
        (st.shrink_to_fit recordSize dev enc).1.buffer.content
        (st.length * recordSize)).take st.length =
      st.buffer.content.take st.length := by
  have hdiv : st.length * recordSize / recordSize = st.length := by
    rw [Nat.mul_comm]
    exact Nat.mul_div_cancel_left st.length hrs
  refine ⟨rfl, rfl, rfl, rfl, ?_⟩
  unfold copy_at_zero
  rw [hdiv]
  have hlen : (st.buffer.content.take st.length).length = st.length := by
    rw [List.length_take]
    omega
  have hz : st.length - (st.buffer.content.take st.length).length = 0 := by
    rw [hlen]
    omega
  simp [List.take_append_eq_append_take, hz, List.take_take, hlen]

theorem c3_witness :
    (dsbSmall.shrink_to_fit 4 7 []).1.item_capacity = dsbSmall.length ∧
    (copy_at_zero 4 dsbSmall.buffer.content
        (dsbSmall.shrink_to_fit 4 7 []).1.buffer.content
        (dsbSmall.length * 4)).take dsbSmall.length =
      dsbSmall.buffer.content.take dsbSmall.length :=
  ⟨(c3_shrink_to_fit_spec 4 7 [] dsbSmall (by decide) (by decide) (by decide)).1,
    (c3_shrink_to_fit_spec 4 7 [] dsbSmall (by decide) (by decide) (by decide)).2.2.2.2⟩

theorem set_new_data_cap_mono {I : Type} [Inhabited I] (st : DynamicStorageBuffer I)
    (recordSize dev : Nat) (data : List I) :
    st.item_capacity ≤ (st.set_new_data recordSize dev data).1.item_capacity := by
  by_cases hle : data.length ≤ st.item_capacity
  · simp [DynamicStorageBuffer.set_new_data, hle]
  · have h1 := next_power_of_two_ge data.length
    simp [DynamicStorageBuffer.set_new_data, hle,
      DynamicStorageBuffer.replace_buffer_with_new_length]
    omega

/-- C7: `set_new_data` never reduces the capacity, in one call and across
any sequence of calls; only `shrink_to_fit` can shrink it. -/
theorem c7_capacity_monotone {I : Type} [Inhabited I] (recordSize : Nat) :
    (∀ (st : DynamicStorageBuffer I) (dev : Nat) (data : List I),
      st.item_capacity ≤ (st.set_new_data recordSize dev data).1.item_capacity) ∧
    (∀ (datas : List (List I)) (st : DynamicStorageBuffer I) (dev : Nat),
      st.item_capacity ≤ (runSets recordSize (st, dev) datas).1.item_capacity) := by
  refine ⟨fun st dev data => set_new_data_cap_mono st recordSize dev data, ?_⟩
  intro datas
  induction datas with
  | nil => intro st dev; simp [runSets]
  | cons d ds ih =>
    intro st dev
    have h3 : runSets recordSize (st, dev) (d :: ds) =
        runSets recordSize (st.set_new_data recordSize dev d) ds := rfl
    rw [h3]
    exact le_trans (set_new_data_cap_mono st recordSize dev d)
      (ih (st.set_new_data recordSize dev d).1 (st.set_new_data recordSize dev d).2)

/-- C8: the concrete scenario of spec section 8, over a 4-byte record type:
fresh buffer has capacity 4 and length 0; 3 records fit in place; 10
records force a reallocation to capacity 16; `shrink_to_fit` then brings
the capacity down to 10. -/
theorem c8_concrete_scenario :
    dsbDemo0.1.item_capacity = 4 ∧ dsbDemo0.1.length = 0 ∧
    dsbDemo1.1.length = 3 ∧ dsbDemo1.1.item_capacity = 4 ∧
    dsbDemo1.1.buffer.id = dsbDemo0.1.buffer.id ∧ dsbDemo1.2 = dsbDemo0.2 ∧
    dsbDemo2.1.length = 10 ∧ dsbDemo2.1.item_capacity = 16 ∧
    dsbDemo2.1.buffer.id ≠ dsbDemo1.1.buffer.id ∧ dsbDemo2.2 = dsbDemo1.2 + 1 ∧
    dsbDemo3.1.item_capacity = 10 ∧ dsbDemo3.1.length = 10 := by
  decide

theorem storage_inv_with_capacity {I : Type} [Inhabited I] (recordSize dev cap : Nat) :
    storage_inv recordSize (DynamicStorageBuffer.with_capacity I recordSize dev cap).1 := by
  constructor
  · simp [DynamicStorageBuffer.with_capacity]
  · simp [DynamicStorageBuffer.with_capacity, create_buffer]

theorem storage_inv_set_new_data {I : Type} [Inhabited I] (recordSize dev : Nat)
    (st : DynamicStorageBuffer I) (data : List I) (h : storage_inv recordSize st) :
    storage_inv recordSize (st.set_new_data recordSize dev data).1 := by
  obtain ⟨h1, h2⟩ := h
  by_cases hle : data.length ≤ st.item_capacity
  · constructor
    · simp [DynamicStorageBuffer.set_new_data, hle]
    · simpa [DynamicStorageBuffer.set_new_data, hle, write_buffer] using h2
  · constructor
    · have h3 := next_power_of_two_ge data.length
      simp only [DynamicStorageBuffer.set_new_data, hle,
        DynamicStorageBuffer.replace_buffer_with_new_length, if_neg]
      simpa [write_buffer] using h3
    · simp [DynamicStorageBuffer.set_new_data, hle,
        DynamicStorageBuffer.replace_buffer_with_new_length, create_buffer, write_buffer]

theorem storage_inv_shrink_to_fit {I : Type} [Inhabited I] (recordSize dev : Nat)
    (enc : List CopyCmd) (st : DynamicStorageBuffer I) :
    storage_inv recordSize (st.shrink_to_fit recordSize dev enc).1 := by
  constructor
  · simp [DynamicStorageBuffer.shrink_to_fit,
      DynamicStorageBuffer.replace_buffer_with_new_length]
  · simp [DynamicStorageBuffer.shrink_to_fit,
      DynamicStorageBuffer.replace_buffer_with_new_length, create_buffer]

theorem storage_inv_runOps {I : Type} [Inhabited I] (recordSize : Nat) :
    ∀ (ops : List (StorageOp I)) (s : DynamicStorageBuffer I × Nat × List CopyCmd),
      storage_inv recordSize s.1 → storage_inv recordSize (runOps recordSize s ops).1 := by
  intro ops
  induction ops with
  | nil => intro s h; simpa [runOps] using h
  | cons op ops ih =>
    intro s h
    have hstep : storage_inv recordSize (stepOp recordSize s op).1 := by
      cases op with
      | set_new_data data => exact storage_inv_set_new_data recordSize s.2.1 s.1 data h
      | shrink_to_fit => exact storage_inv_shrink_to_fit recordSize s.2.1 s.2.2 s.1
    have h3 : runOps recordSize s (op :: ops) =
        runOps recordSize (stepOp recordSize s op) ops := rfl
    rw [h3]
    exact ih (stepOp recordSize s op) hstep

theorem set_new_data_cap_eq_or_pow2 {I : Type} [Inhabited I] (recordSize dev : Nat)
    (st : DynamicStorageBuffer I) (data : List I) :
    (st.set_new_data recordSize dev data).1.item_capacity = st.item_capacity ∨
    ∃ k, (st.set_new_data recordSize dev data).1.item_capacity = 2 ^ k := by
  by_cases hle : data.length ≤ st.item_capacity
  · left
    simp [DynamicStorageBuffer.set_new_data, hle]
  · right
    obtain ⟨k, hk⟩ := next_power_of_two_pow2 data.length
    refine ⟨k, ?_⟩
    simp [DynamicStorageBuffer.set_new_data, hle,
      DynamicStorageBuffer.replace_buffer_with_new_length, hk]

theorem runSets_cap_eq_or_pow2 {I : Type} [Inhabited I] (recordSize : Nat) :
    ∀ (datas : List (List I)) (st : DynamicStorageBuffer I) (dev : Nat),
      (runSets recordSize (st, dev) datas).1.item_capacity = st.item_capacity ∨
      ∃ k, (runSets recordSize (st, dev) datas).1.item_capacity = 2 ^ k := by
  intro datas
  induction datas with
  | nil => intro st dev; left; simp [runSets]
  | cons d ds ih =>
    intro st dev
    have h3 : runSets recordSize (st, dev) (d :: ds) =
        runSets recordSize (st.set_new_data recordSize dev d) ds := rfl
    rw [h3]
    have ih2 := ih (st.set_new_data recordSize dev d).1 (st.set_new_data recordSize dev d).2
    rcases ih2 with heq | hpow
    · rcases set_new_data_cap_eq_or_pow2 recordSize dev st d with h1 | h1
      · exact Or.inl (heq.trans h1)
      · obtain ⟨k, hk⟩ := h1
        exact Or.inr ⟨k, heq.trans hk⟩
    · exact Or.inr hpow

/-- C2 (amended): `length ≤ capacity` and byte size `= capacity * sizeof`
hold for the initial states and are preserved by every sequence drawn from
{set_new_data, shrink_to_fit}; and for sequences of `set_new_data` alone
the capacity is either still its initial value (no growth yet) or a power
of two.  (The power-of-two clause does not survive `shrink_to_fit`, see the
counterexample.) -/
theorem c2_invariants_amended {I : Type} [Inhabited I] (recordSize cap dev : Nat)
    (st : DynamicStorageBuffer I) (enc : List CopyCmd)
    (h : storage_inv recordSize st) :
    storage_inv recordSize (DynamicStorageBuffer.with_capacity I recordSize dev cap).1 ∧
    (∀ ops : List (StorageOp I),
      storage_inv recordSize (runOps recordSize (st, dev, enc) ops).1) ∧
    (∀ datas : List (List I),
      (runSets recordSize (st, dev) datas).1.item_capacity = st.item_capacity ∨
      ∃ k, (runSets recordSize (st, dev) datas).1.item_capacity = 2 ^ k) := by
  refine ⟨storage_inv_with_capacity recordSize dev cap, fun ops => ?_,
    fun datas => runSets_cap_eq_or_pow2 recordSize datas st dev⟩
  exact storage_inv_runOps recordSize ops (st, dev, enc) h

theorem c2_witness :
    storage_inv 4 (DynamicStorageBuffer.with_capacity Unit 4 0 4).1 ∧
    storage_inv 4 (runOps 4 (dsbSmall, 0, []) [StorageOp.shrink_to_fit]).1 :=
  ⟨(c2_invariants_amended 4 4 0 dsbSmall []
      (by unfold storage_inv; exact ⟨by decide, by decide⟩)).1,
    (c2_invariants_amended 4 4 0 dsbSmall []
      (by unfold storage_inv; exact ⟨by decide, by decide⟩)).2.1 [StorageOp.shrink_to_fit]⟩

/-- C2 counterexample: from `new` (capacity 4), `set_new_data` with 10
records grows the capacity to 16 (growth has occurred), and a following
`shrink_to_fit` leaves capacity 10, which is not a power of two — so the
claim's power-of-two clause fails for sequences containing
`shrink_to_fit`. -/
theorem c2_counterexample :
    4 < (List.replicate 10 ()).length ∧
    dsbCexMid.1.item_capacity = 16 ∧
    dsbCexEnd.1.item_capacity = 10 ∧
    ¬ ∃ k : Nat, dsbCexEnd.1.item_capacity = 2 ^ k := by
  refine ⟨by decide, by decide, by decide, ?_⟩
  rintro ⟨k, hk⟩
  have hcap : dsbCexEnd.1.item_capacity = 10 := by decide
  rw [hcap] at hk
  rcases Nat.lt_or_ge k 4 with hlt | hge
  · interval_cases k <;> norm_num at hk
  · have h16 : (2 : Nat) ^ 4 ≤ 2 ^ k := Nat.pow_le_pow_right (by norm_num) hge
    rw [← hk] at h16
    norm_num at h16

theorem foldl_push_eq_map {α β : Type} (f : α → β) :
    ∀ (l : List α) (acc : List β),
      l.foldl (fun a s => a ++ [f s]) acc = acc ++ l.map f := by
  intro l
  induction l with
  | nil => intro acc; simp
  | cons x xs ih => intro acc; simp [List.foldl, ih]

theorem try_add_stage_nodup (rc : RenderController) (s : RenderStage)
    (h : rc.render_order.Nodup) : ((rc.try_add_stage s).2).render_order.Nodup := by
  unfold RenderController.try_add_stage
  split
  · exact h
  · simp only []
    rename_i hns
    simp [List.nodup_append, h, hns]

theorem apply_adds_nodup :
    ∀ (stages : List RenderStage) (rc : RenderController),
      rc.render_order.Nodup → (apply_adds rc stages).render_order.Nodup := by
  intro stages
  induction stages with
  | nil => intro rc h; simpa [apply_adds] using h
  | cons s ss ih =>
    intro rc h
    have h3 : apply_adds rc (s :: ss) = apply_adds (rc.try_add_stage s).2 ss := rfl
    rw [h3]
    exact ih (rc.try_add_stage s).2 (try_add_stage_nodup rc s h)

/-- C6: `add_stage` panics exactly when the stage is already in the render
order and otherwise appends it; `try_add_stage` returns `false` and leaves
the controller unchanged when the stage is present, and `true` with the
stage appended otherwise; hence the render order built from the cleared
controller is always duplicate-free; and the redraw loop issues exactly one
pipeline draw per stage, in render-order order. -/
theorem c6_stage_dedup :
    (∀ (rc : RenderController) (stage : RenderStage),
      (rc.add_stage stage = none ↔ stage ∈ rc.render_order) ∧
      (stage ∉ rc.render_order →
        rc.add_stage stage = some { rc with render_order := rc.render_order ++ [stage] }) ∧
      (stage ∈ rc.render_order → rc.try_add_stage stage = (false, rc)) ∧
      (stage ∉ rc.render_order →
        rc.try_add_stage stage =
          (true, { rc with render_order := rc.render_order ++ [stage] }))) ∧
    (∀ stages : List RenderStage,
      (apply_adds RenderController.new stages).render_order.Nodup) ∧
    (∀ rc : RenderController, redraw_dispatch rc = rc.render_order.map stage_pipeline) := by
  refine ⟨fun rc stage => ?_, fun stages => ?_, fun rc => ?_⟩
  · by_cases hmem : stage ∈ rc.render_order
    · refine ⟨?_, fun hn => absurd hmem hn, fun _ => ?_, fun hn => absurd hmem hn⟩ <;>
        simp [RenderController.add_stage, RenderController.try_add_stage, hmem]
    · refine ⟨?_, fun _ => ?_, fun hm => absurd hm hmem, fun _ => ?_⟩ <;>
        simp [RenderController.add_stage, RenderController.try_add_stage, hmem]
  · exact apply_adds_nodup stages RenderController.new List.nodup_nil
  · unfold redraw_dispatch
    simpa using foldl_push_eq_map stage_pipeline rc.render_order []

theorem c6_witness :
    (RenderController.mk [RenderStage.Line] [] []).try_add_stage RenderStage.Line =
      (false, RenderController.mk [RenderStage.Line] [] []) :=
  ((c6_stage_dedup.1 (RenderController.mk [RenderStage.Line] [] [])
    RenderStage.Line).2.2.1) (by decide)

/-- C10: `RectCircleDrawer::new` with `Some(initial_instances)` panics
whenever `initial_instances.len() < instance_capacity` — the assertion only
requires `≤`, but the subsequent whole-buffer `copy_from_slice` then fails
its equal-length check — so construction with an initial slice succeeds
exactly when the slice length equals the capacity. -/
theorem c10_new_len_mismatch :
    ∀ (cap : Nat) (xs : List RectOrCircle),
      (xs.length < cap → RectCircleDrawer.new cap (some xs) = none) ∧
      ((RectCircleDrawer.new cap (some xs)).isSome ↔ xs.length = cap) := by
  intro cap xs
  have h32 : (xs.length * rect_or_circle_size = cap * rect_or_circle_size) ↔
      xs.length = cap := by
    unfold rect_or_circle_size
    omega
  constructor
  · intro h
    have hne : ¬ (xs.length * rect_or_circle_size = cap * rect_or_circle_size) := by
      rw [h32]
      omega
    simp [RectCircleDrawer.new, Nat.le_of_lt h, hne]
  · by_cases hle : xs.length ≤ cap
    · by_cases heq : xs.length = cap
      · have hby : xs.length * rect_or_circle_size = cap * rect_or_circle_size := by
          rw [h32]
          exact heq
        simp [RectCircleDrawer.new, hle, hby, heq]
      · have hne : ¬ (xs.length * rect_or_circle_size = cap * rect_or_circle_size) := by
          rw [h32]
          exact heq
        simp [RectCircleDrawer.new, hle, hne, heq]
    · have hne : xs.length ≠ cap := by omega
      simp [RectCircleDrawer.new, hle, hne]

theorem c10_witness :
    RectCircleDrawer.new 1 (some []) = none :=
  (c10_new_len_mismatch 1 []).1 (by decide)
